import Mathlib

/-!
Verification of the cash-drawer reconciliation component
(`src/app.component.ts`).  The component's state, derived subtotals,
submission logic and status lifecycle are shallowly embedded below;
JavaScript numbers are modelled by `Int` and `null`/absent values by
`Option`.
-/

namespace Cierre

/-- The `shift` field, `'mañana' | 'tarde'` in the source. -/
inductive Shift where
  | manana
  | tarde
deriving DecidableEq, Repr

/-- `interface CashEntry { denomination: number | null; quantity: number | null }`. -/
structure CashEntry where
  denomination : Option Int
  quantity : Option Int
deriving DecidableEq, Repr

/-- `interface ExpenseEntry { detail: string; amount: number | null }`. -/
structure ExpenseEntry where
  detail : String
  amount : Option Int
deriving DecidableEq, Repr

/-- `interface LogEntry`: one ledger row sent to the webhook. -/
structure LogEntry where
  day : String
  closerName : String
  shift : Shift
  accountingImputation : String
  accountEntry : String
  amount : Int
deriving DecidableEq, Repr

/-- The form-state signals of `AppComponent` (everything the batch builder
and the reset touch). -/
structure FormState where
  closerName : String
  shift : Shift
  firstDataIncome : Option Int
  pedidosYaIncome : Option Int
  mercadoPagoIncome : Option Int
  dailySummary : Option Int
  cashEntries : List CashEntry
  expenses : List ExpenseEntry
deriving DecidableEq, Repr

/-- `DEFAULT_CASH_ENTRIES`: three seed denominations with absent quantities. -/
def DEFAULT_CASH_ENTRIES : List CashEntry :=
  [⟨some 20000, none⟩, ⟨some 10000, none⟩, ⟨some 2000, none⟩]

/-- The default seed of the form state: the initial signal values, which are
also what `resetForm` restores. -/
def defaultFormState : FormState :=
  { closerName := ""
    shift := .manana
    firstDataIncome := none
    pedidosYaIncome := none
    mercadoPagoIncome := none
    dailySummary := none
    cashEntries := DEFAULT_CASH_ENTRIES
    expenses := [⟨"", none⟩] }

/-- `cashSubtotal`: reduce over the cash entries of
`(denomination ?? 0) * (quantity ?? 0)`. -/
def cashSubtotal (entries : List CashEntry) : Int :=
  entries.foldl (fun acc entry => acc + entry.denomination.getD 0 * entry.quantity.getD 0) 0

/-- `expensesSubtotal`: reduce over the expenses of `(amount ?? 0)`. -/
def expensesSubtotal (expenses : List ExpenseEntry) : Int :=
  expenses.foldl (fun acc expense => acc + expense.amount.getD 0) 0

/-- `digitalIncomeSubtotal`: the three digital-income scalars, absent as 0. -/
def digitalIncomeSubtotal (s : FormState) : Int :=
  s.firstDataIncome.getD 0 + s.pedidosYaIncome.getD 0 + s.mercadoPagoIncome.getD 0

/-- `totalIncome = digitalIncomeSubtotal + cashSubtotal`. -/
def totalIncome (s : FormState) : Int :=
  digitalIncomeSubtotal s + cashSubtotal s.cashEntries

/-- `netTotal = totalIncome - expensesSubtotal`. -/
def netTotal (s : FormState) : Int :=
  totalIncome s - expensesSubtotal s.expenses

/-- `absoluteTotal = totalIncome + expensesSubtotal`. -/
def absoluteTotal (s : FormState) : Int :=
  totalIncome s + expensesSubtotal s.expenses

/-- `difference = absoluteTotal - (dailySummary ?? 0)`. -/
def difference (s : FormState) : Int :=
  absoluteTotal s - s.dailySummary.getD 0

/-! ## Batch construction (`submitForm`, lines 168–198) -/

/-- JavaScript truthiness of a `number | null`: `null`, `0` are falsy. -/
def numTruthy : Option Int → Bool
  | none => false
  | some v => v != 0

/-- The guard of the expense loop in `submitForm`:
`expense.amount && expense.amount > 0 && expense.detail`. -/
def expenseQualifies (e : ExpenseEntry) : Bool :=
  numTruthy e.amount && e.amount.getD 0 > 0 && e.detail != ""

/-- The ledger rows pushed by the `this.expenses().forEach` loop of
`submitForm`, in list order. -/
def expenseLogEntries (now closerName : String) (shift : Shift)
    (expenses : List ExpenseEntry) : List LogEntry :=
  expenses.filterMap fun expense =>
    if expenseQualifies expense then
      some ⟨now, closerName, shift, "Gastos Operativos",
            "Gasto: " ++ expense.detail, -(expense.amount.getD 0)⟩
    else none

/-- The ledger-entry batch `newLogEntries` built by `submitForm` from the
form state at submit time, with the single shared timestamp `now`:
the three digital-income entries (each guarded by `(x ?? 0) > 0`), the
aggregate cash entry (guarded by `cashSubtotal > 0`), the qualifying
expense entries, then the manual-summary and difference entries (guarded
by `dailySummary !== null`), in push order. -/
def buildBatch (now : String) (s : FormState) : List LogEntry :=
  (if s.firstDataIncome.getD 0 > 0 then
    [⟨now, s.closerName, s.shift, "Ventas con Tarjeta", "Ingreso: First Data",
      s.firstDataIncome.getD 0⟩] else [])
  ++ (if s.pedidosYaIncome.getD 0 > 0 then
    [⟨now, s.closerName, s.shift, "Ventas Delivery", "Ingreso: PedidosYa",
      s.pedidosYaIncome.getD 0⟩] else [])
  ++ (if s.mercadoPagoIncome.getD 0 > 0 then
    [⟨now, s.closerName, s.shift, "Ventas Digitales", "Ingreso: Mercado Pago",
      s.mercadoPagoIncome.getD 0⟩] else [])
  ++ (if cashSubtotal s.cashEntries > 0 then
    [⟨now, s.closerName, s.shift, "Ventas en Efectivo", "Ingreso: Efectivo",
      cashSubtotal s.cashEntries⟩] else [])
  ++ expenseLogEntries now s.closerName s.shift s.expenses
  ++ (match s.dailySummary with
      | some d =>
        [⟨now, s.closerName, s.shift, "Cierre", "Resumen Diario (Manual)", d⟩,
         ⟨now, s.closerName, s.shift, "Cierre", "Diferencia de Caja", difference s⟩]
      | none => [])

/-! ## Component state, submission and reset -/

/-- `webhookStatus`: `'idle' | 'sending' | 'success' | 'error'`. -/
inductive WebhookStatus where
  | idle
  | sending
  | success
  | error
deriving DecidableEq, Repr

/-- The full component state touched by submission: form signals, webhook
status and error message, and the history log. -/
structure AppState where
  form : FormState
  webhookStatus : WebhookStatus
  webhookError : Option String
  logHistory : List LogEntry
deriving DecidableEq, Repr

/-- The initial component state: default form seed, `idle` status, no error
message, empty history. -/
def initAppState : AppState :=
  { form := defaultFormState
    webhookStatus := .idle
    webhookError := none
    logHistory := [] }

/-- The fixed validation message set when the closer name is empty. -/
def validationMsg : String := "Por favor, complete su nombre y el turno antes de enviar."

/-- The fixed message set when the built batch is empty. -/
def emptyBatchMsg : String := "No hay movimientos para registrar."

/-- The message for a transport failure (`err.status === 0`). -/
def networkErrMsg : String := "Error de red/CORS. Verifique la conexión."

/-- The message for a failure carrying a server status code. -/
def serverErrMsg (status : Nat) : String :=
  "Error del servidor: " ++ toString status ++ "."

/-- The synchronous part of `submitForm` (lines 158–206): set `sending` and
clear the error, validate the closer name (the shift is a non-empty enum
literal, so `!this.shift()` is always false), build the batch, and either
stop in an error state or hand the batch to the HTTP post.  The second
component is the posted batch; `none` means no network call occurred. -/
def submitFormSync (now : String) (st : AppState) : AppState × Option (List LogEntry) :=
  let st := { st with webhookStatus := .sending, webhookError := none }
  if st.form.closerName = "" then
    ({ st with webhookStatus := .error, webhookError := some validationMsg }, none)
  else
    let batch := buildBatch now st.form
    if batch = [] then
      ({ st with webhookStatus := .error, webhookError := some emptyBatchMsg }, none)
    else
      (st, some batch)

/-- `resetForm` (lines 228–237): restore every form signal to its seed. -/
def resetForm (st : AppState) : AppState :=
  { st with form := defaultFormState }

/-- The `next` callback of the subscription (lines 207–213): set `success`,
prepend the batch to the history, reset the form.  (The 5 s timer it
schedules is modelled in the transition system below.) -/
def onNetworkSuccess (batch : List LogEntry) (st : AppState) : AppState :=
  resetForm { st with webhookStatus := .success, logHistory := batch ++ st.logHistory }

/-- The `error` callback of the subscription (lines 214–224): set `error`
and classify the failure by `err.status`. -/
def onNetworkFailure (status : Nat) (st : AppState) : AppState :=
  let message := if status = 0 then networkErrMsg else serverErrMsg status
  { st with webhookStatus := .error, webhookError := some message }

/-! ## Per-row update handlers (lines 113–138)

`onCashEntryKeyup`, `onExpenseDetailKeyup` and `onExpenseAmountKeyup`
copy the list (`[...entries]`) and replace the row at `index` by a spread
copy with one field overwritten.  For an index at or beyond the length,
`newEntries[index]` is `undefined`, `{...undefined}` is `{}`, and the
assignment grows the array to `index + 1`, leaving holes at the skipped
indices; a hole behaves as a row whose fields are all absent wherever the
component reads it (`?? 0`), so holes are modelled as blank rows. -/

/-- The field selector of `onCashEntryKeyup`. -/
inductive CashField where
  | denomination
  | quantity
deriving DecidableEq, Repr

/-- Overwrite one field of a cash row (`{ ...row, [field]: value }`). -/
def setCashField (field : CashField) (value : Option Int) (row : CashEntry) : CashEntry :=
  match field with
  | .denomination => { row with denomination := value }
  | .quantity => { row with quantity := value }

/-- A cash row with both fields absent (models `{...undefined}` plus holes). -/
def blankCashEntry : CashEntry := ⟨none, none⟩

/-- `onCashEntryKeyup`'s list update: copy-on-write replacement at `index`,
growing the list with blank rows when `index` is out of range. -/
def updateCashEntries (entries : List CashEntry) (index : Nat) (field : CashField)
    (value : Option Int) : List CashEntry :=
  if h : index < entries.length then
    entries.set index (setCashField field value entries[index])
  else
    entries ++ List.replicate (index - entries.length) blankCashEntry
      ++ [setCashField field value blankCashEntry]

/-- An expense row as produced by `{...undefined}`: empty detail, absent
amount (also models holes). -/
def blankExpenseEntry : ExpenseEntry := ⟨"", none⟩

/-- `onExpenseDetailKeyup`'s list update. -/
def updateExpenseDetail (entries : List ExpenseEntry) (index : Nat)
    (value : String) : List ExpenseEntry :=
  if h : index < entries.length then
    entries.set index { entries[index] with detail := value }
  else
    entries ++ List.replicate (index - entries.length) blankExpenseEntry
      ++ [{ blankExpenseEntry with detail := value }]

/-- `onExpenseAmountKeyup`'s list update. -/
def updateExpenseAmount (entries : List ExpenseEntry) (index : Nat)
    (value : Option Int) : List ExpenseEntry :=
  if h : index < entries.length then
    entries.set index { entries[index] with amount := value }
  else
    entries ++ List.replicate (index - entries.length) blankExpenseEntry
      ++ [{ blankExpenseEntry with amount := value }]

/-! ## Event-level transition system

The component runs on a single-threaded event loop: user keystrokes (which
may set the form signals to arbitrary values), submit clicks, completion
callbacks of an in-flight HTTP post, and the firing of a scheduled 5 s
auto-idle timer.  `submitForm` does not guard against being invoked while
a request is in flight or while the success timer is pending, and the
timer is never cancelled, so the system state carries the multiset of
in-flight batches and the number of pending timers. -/

/-- The whole system: component state, in-flight posted batches, pending
auto-idle timers. -/
structure SysState where
  app : AppState
  inFlight : List (List LogEntry)
  timers : Nat
deriving DecidableEq, Repr

/-- The initial system state. -/
def initSys : SysState := ⟨initAppState, [], 0⟩

/-- The events the component reacts to. -/
inductive Ev where
  | edit (f : FormState)
  | submit (now : String)
  | netSuccess
  | netFailure (code : Nat)
  | timer
deriving DecidableEq, Repr

/-- One event-loop step of the component. -/
inductive Step : SysState → Ev → SysState → Prop where
  | edit (σ : SysState) (f : FormState) :
      Step σ (.edit f) ⟨{ σ.app with form := f }, σ.inFlight, σ.timers⟩
  | submitNoPost (σ : SysState) (now : String) (a : AppState) :
      submitFormSync now σ.app = (a, none) →
      Step σ (.submit now) ⟨a, σ.inFlight, σ.timers⟩
  | submitPost (σ : SysState) (now : String) (a : AppState) (b : List LogEntry) :
      submitFormSync now σ.app = (a, some b) →
      Step σ (.submit now) ⟨a, b :: σ.inFlight, σ.timers⟩
  | netSuccess (σ : SysState) (b : List LogEntry) (rest : List (List LogEntry)) :
      σ.inFlight = b :: rest →
      Step σ .netSuccess ⟨onNetworkSuccess b σ.app, rest, σ.timers + 1⟩
  | netFailure (σ : SysState) (code : Nat) (b : List LogEntry) (rest : List (List LogEntry)) :
      σ.inFlight = b :: rest →
      Step σ (.netFailure code) ⟨onNetworkFailure code σ.app, rest, σ.timers⟩
  | timer (σ : SysState) :
      0 < σ.timers →
      Step σ .timer ⟨{ σ.app with webhookStatus := .idle }, σ.inFlight, σ.timers - 1⟩

/-- Reachability from the initial state. -/
inductive Reach : SysState → Prop where
  | init : Reach initSys
  | step {σ σ2 : SysState} {e : Ev} : Reach σ → Step σ e σ2 → Reach σ2

/-- A submit event fired only while the status is `idle` or `error`. -/
def SubmitOk (σ : SysState) (e : Ev) : Prop :=
  ∀ now, e = Ev.submit now →
    σ.app.webhookStatus = .idle ∨ σ.app.webhookStatus = .error

/-- Reachability when every submit happens from `idle` or `error` (the
intended discipline: the user does not resubmit while a request is in
flight or before the success banner auto-clears). -/
inductive GReach : SysState → Prop where
  | init : GReach initSys
  | step {σ σ2 : SysState} {e : Ev} : GReach σ → Step σ e σ2 → SubmitOk σ e → GReach σ2

/-- The status pairs the spec's state machine allows:
`idle → sending`, `error → sending` (submit), `sending → success`,
`sending → error` (attempt completion), `success → idle` (timer). -/
def allowedTransition : WebhookStatus → WebhookStatus → Bool
  | .idle, .sending => true
  | .error, .sending => true
  | .sending, .success => true
  | .sending, .error => true
  | .success, .idle => true
  | _, _ => false

/-- The sequence of values the `webhookStatus` signal takes during one
step.  A submit handler always passes through `sending` (it is set first,
before validation), so its trace has three points; every other event sets
the status at most once. -/
def statusesOf (σ : SysState) (e : Ev) (σ2 : SysState) : List WebhookStatus :=
  match e with
  | .submit _ => [σ.app.webhookStatus, .sending, σ2.app.webhookStatus]
  | _ => [σ.app.webhookStatus, σ2.app.webhookStatus]

/-- Boolean check that every adjacent change of status in the list is an
allowed transition. -/
def chainOkB : List WebhookStatus → Bool
  | [] => true
  | [_] => true
  | a :: b :: l => (a == b || allowedTransition a b) && chainOkB (b :: l)

/-- Every adjacent change of status in the list is an allowed transition. -/
def ChainOk (l : List WebhookStatus) : Prop :=
  chainOkB l = true

instance : DecidablePred ChainOk := fun l =>
  inferInstanceAs (Decidable (chainOkB l = true))

/-- The claim C5 states: along every reachable step, the status signal only
ever moves along the spec's transitions. -/
def StatusDiscipline : Prop :=
  ∀ σ e σ2, Reach σ → Step σ e σ2 → ChainOk (statusesOf σ e σ2)

/-- Invariant of disciplined executions: at most one request is in flight
and only while `sending`; at most one timer is pending and only while
`success`. -/
def SysInv (σ : SysState) : Prop :=
  (σ.inFlight = [] ∨ (∃ b, σ.inFlight = [b] ∧ σ.app.webhookStatus = .sending)) ∧
  (σ.timers = 0 ∨ (σ.timers = 1 ∧ σ.app.webhookStatus = .success))

/-! ## Spec-side descriptions (for refinement comparison)

The following definitions follow the wording of the specification, not the
code; the theorems below compare them with the embedded code. -/

/-- Following the spec's words: an expense row qualifies when its amount is
present, greater than 0, and its detail is non-empty. -/
def specExpenseQualifies (e : ExpenseEntry) : Bool :=
  e.amount.isSome && e.amount.getD 0 > 0 && e.detail ≠ ""

/-- Following the spec's words: the qualifying expense rows, each mapped to
a ledger entry with negated amount and a label embedding the detail. -/
def specExpensePart (now closerName : String) (shift : Shift)
    (expenses : List ExpenseEntry) : List LogEntry :=
  (expenses.filter specExpenseQualifies).map fun e =>
    ⟨now, closerName, shift, "Gastos Operativos", "Gasto: " ++ e.detail,
     -(e.amount.getD 0)⟩

/-- Following the spec's words: the batch is, in order, one entry per
digital-income scalar whose value is greater than 0 (First Data, then
PedidosYa, then Mercado Pago), then one aggregate cash entry iff the cash
subtotal is positive, then one entry per qualifying expense row, then —
iff `dailySummary` is present — a manual-summary entry and a difference
entry. -/
def specLedgerBatch (now : String) (s : FormState) : List LogEntry :=
  (match s.firstDataIncome with
   | some v =>
     if v > 0 then
       [⟨now, s.closerName, s.shift, "Ventas con Tarjeta", "Ingreso: First Data", v⟩]
     else []
   | none => [])
  ++ (match s.pedidosYaIncome with
   | some v =>
     if v > 0 then
       [⟨now, s.closerName, s.shift, "Ventas Delivery", "Ingreso: PedidosYa", v⟩]
     else []
   | none => [])
  ++ (match s.mercadoPagoIncome with
   | some v =>
     if v > 0 then
       [⟨now, s.closerName, s.shift, "Ventas Digitales", "Ingreso: Mercado Pago", v⟩]
     else []
   | none => [])
  ++ (if cashSubtotal s.cashEntries > 0 then
    [⟨now, s.closerName, s.shift, "Ventas en Efectivo", "Ingreso: Efectivo",
      cashSubtotal s.cashEntries⟩] else [])
  ++ specExpensePart now s.closerName s.shift s.expenses
  ++ (match s.dailySummary with
      | some d =>
        [⟨now, s.closerName, s.shift, "Cierre", "Resumen Diario (Manual)", d⟩,
         ⟨now, s.closerName, s.shift, "Cierre", "Diferencia de Caja", difference s⟩]
      | none => [])

/-! ## Concrete example states -/

/-- The spec's worked example: firstDataIncome 100, cash subtotal 40000,
one expense `{detail := "ice", amount := 15}`, dailySummary 40085. -/
def exampleForm : FormState :=
  { closerName := "ana"
    shift := .manana
    firstDataIncome := some 100
    pedidosYaIncome := none
    mercadoPagoIncome := none
    dailySummary := some 40085
    cashEntries := [⟨some 20000, some 2⟩]
    expenses := [⟨"ice", some 15⟩] }

/-- The spec's empty-batch example: a valid name, all digital incomes
entered as 0, seed cash rows (no quantities), one blank expense row,
dailySummary absent. -/
def emptyBatchForm : FormState :=
  { closerName := "ana"
    shift := .manana
    firstDataIncome := some 0
    pedidosYaIncome := some 0
    mercadoPagoIncome := some 0
    dailySummary := none
    cashEntries := DEFAULT_CASH_ENTRIES
    expenses := [⟨"", none⟩] }

/-- A minimal valid form used to drive the transition system: a closer
name and one positive digital income. -/
def traceForm : FormState :=
  { defaultFormState with closerName := "ana", firstDataIncome := some 100 }

/-- The batch `submitForm` builds from `traceForm` at timestamp "t". -/
def traceBatch1 : List LogEntry :=
  [⟨"t", "ana", .manana, "Ventas con Tarjeta", "Ingreso: First Data", 100⟩]

/-- The component state after the first submit posts its batch. -/
def traceAppSending : AppState :=
  { form := traceForm, webhookStatus := .sending, webhookError := none, logHistory := [] }

/-- The component state after the first submission succeeds: form reset,
status `success`, batch in history. -/
def traceAppSuccess : AppState :=
  { form := defaultFormState, webhookStatus := .success, webhookError := none
    logHistory := traceBatch1 }

/-- The system state after success with the user having retyped the form
while the 5 s timer is still pending. -/
def traceReadyAgain : SysState :=
  ⟨{ traceAppSuccess with form := traceForm }, [], 1⟩

/-! ## Helper lemmas -/

theorem foldl_add_sum {α : Type} (f : α → Int) (l : List α) (acc : Int) :
    l.foldl (fun a x => a + f x) acc = acc + (l.map f).sum := by
  induction l generalizing acc with
  | nil => simp
  | cons x xs ih => simp [ih, add_assoc]

theorem cashSubtotal_eq_sum (entries : List CashEntry) :
    cashSubtotal entries
      = (entries.map fun e => e.denomination.getD 0 * e.quantity.getD 0).sum := by
  have h := foldl_add_sum (fun e : CashEntry => e.denomination.getD 0 * e.quantity.getD 0)
    entries 0
  simpa [cashSubtotal] using h

theorem expensesSubtotal_eq_sum (expenses : List ExpenseEntry) :
    expensesSubtotal expenses = (expenses.map fun e => e.amount.getD 0).sum := by
  have h := foldl_add_sum (fun e : ExpenseEntry => e.amount.getD 0) expenses 0
  simpa [expensesSubtotal] using h

/-- The code's expense guard (`amount && amount > 0 && detail`, JavaScript
truthiness) agrees with the spec's three conditions (present, positive,
non-empty detail): a positive amount is in particular non-zero. -/
theorem expenseQualifies_eq_spec (e : ExpenseEntry) :
    expenseQualifies e = specExpenseQualifies e := by
  rcases e with ⟨d, a⟩
  cases a with
  | none => simp [expenseQualifies, specExpenseQualifies, numTruthy]
  | some v =>
    by_cases hv : v > 0
    · have hz : v ≠ 0 := by omega
      by_cases hd : d = "" <;>
        simp [expenseQualifies, specExpenseQualifies, numTruthy, hv, bne, hz, hd]
    · simp [expenseQualifies, specExpenseQualifies, numTruthy, hv]

theorem expenseLogEntries_eq_spec (now cn : String) (sh : Shift)
    (es : List ExpenseEntry) :
    expenseLogEntries now cn sh es = specExpensePart now cn sh es := by
  induction es with
  | nil => rfl
  | cons e es ih =>
    by_cases h : expenseQualifies e
    · have hs : specExpenseQualifies e = true := (expenseQualifies_eq_spec e) ▸ h
      simp [expenseLogEntries, specExpensePart, List.filterMap_cons, List.filter_cons,
        h, hs] at ih ⊢
      exact ih
    · have hs : specExpenseQualifies e = false := by
        rw [← expenseQualifies_eq_spec e]; exact Bool.not_eq_true _ ▸ by simpa using h
      simp [expenseLogEntries, specExpensePart, List.filterMap_cons, List.filter_cons,
        h, hs] at ih ⊢
      exact ih

theorem buildBatch_eq_spec (now : String) (s : FormState) :
    buildBatch now s = specLedgerBatch now s := by
  unfold buildBatch specLedgerBatch
  rw [expenseLogEntries_eq_spec]
  cases s.firstDataIncome <;> cases s.pedidosYaIncome <;> cases s.mercadoPagoIncome <;>
    simp

/-- The spec-side qualifying condition, in propositional form. -/
theorem specExpenseQualifies_iff (e : ExpenseEntry) :
    specExpenseQualifies e = true ↔ ∃ a, e.amount = some a ∧ 0 < a ∧ e.detail ≠ "" := by
  rcases e with ⟨d, a⟩
  cases a <;> simp [specExpenseQualifies]

/-- Characterization of a submit whose synchronous part posts a batch: the
name was non-empty, the batch is the one built from the form and is
non-empty, and the component is left `sending` with a cleared error. -/
theorem submitFormSync_post {now : String} {st a : AppState} {b : List LogEntry}
    (h : submitFormSync now st = (a, some b)) :
    a = { st with webhookStatus := .sending, webhookError := none } ∧
    b = buildBatch now st.form ∧ st.form.closerName ≠ "" ∧ b ≠ [] := by
  by_cases h1 : st.form.closerName = ""
  · simp [submitFormSync, h1] at h
  · by_cases h2 : buildBatch now st.form = []
    · simp [submitFormSync, h1, h2] at h
    · simp [submitFormSync, h1, h2] at h
      exact ⟨h.1.symm, h.2.symm, h1, h.2 ▸ h2⟩

/-- Characterization of a submit whose synchronous part does not post: it
ended in the validation-error state or in the empty-batch error state. -/
theorem submitFormSync_noPost {now : String} {st a : AppState}
    (h : submitFormSync now st = (a, none)) :
    (st.form.closerName = "" ∧
      a = { st with webhookStatus := .error, webhookError := some validationMsg }) ∨
    (st.form.closerName ≠ "" ∧ buildBatch now st.form = [] ∧
      a = { st with webhookStatus := .error, webhookError := some emptyBatchMsg }) := by
  by_cases h1 : st.form.closerName = ""
  · simp [submitFormSync, h1] at h
    exact Or.inl ⟨h1, h.symm⟩
  · by_cases h2 : buildBatch now st.form = []
    · simp [submitFormSync, h1, h2] at h
      exact Or.inr ⟨h1, h2, h.symm⟩
    · simp [submitFormSync, h1, h2] at h

/-- A submit that does not post always leaves the status `error`. -/
theorem submitFormSync_noPost_status {now : String} {st a : AppState}
    (h : submitFormSync now st = (a, none)) : a.webhookStatus = .error := by
  rcases submitFormSync_noPost h with ⟨-, rfl⟩ | ⟨-, -, rfl⟩ <;> rfl

/-- The server-status failure message is distinct from the connectivity
message, whatever the status code (the two differ within their first nine
characters already). -/
theorem serverErrMsg_ne_networkErrMsg (code : Nat) :
    serverErrMsg code ≠ networkErrMsg := by
  intro h
  have hd := congrArg String.data h
  rw [serverErrMsg, networkErrMsg, String.data_append, String.data_append] at hd
  have h9 := congrArg (List.take 9) hd
  rw [List.append_assoc, List.take_append_of_le_length (by decide)] at h9
  revert h9
  decide

/-- Shape of an out-of-range handler update: the old rows, padding up to
the index, and the fresh row; length, frame and lookup facts. -/
theorem append_pad_getElem {α : Type} (l : List α) (pad x : α) (i : Nat)
    (h : l.length ≤ i) :
    (l ++ List.replicate (i - l.length) pad ++ [x]).length = i + 1 ∧
    (∀ j, j < l.length → (l ++ List.replicate (i - l.length) pad ++ [x])[j]? = l[j]?) ∧
    (l ++ List.replicate (i - l.length) pad ++ [x])[i]? = some x := by
  have hmid : (l ++ List.replicate (i - l.length) pad).length = i := by
    simp; omega
  refine ⟨by simp; omega, fun j hj => ?_, ?_⟩
  · rw [List.getElem?_append, if_pos (by simp; omega), List.getElem?_append, if_pos hj]
  · rw [List.getElem?_append, if_neg (by omega), hmid]
    simp

/-! ## Claim theorems -/

/-- C1: the batch built by `submitForm` is exactly, in order, one entry per
positive digital-income scalar (First Data, PedidosYa, Mercado Pago, each
with its fixed category/label pair and amount equal to the scalar), then
an aggregate cash entry iff the cash subtotal is positive, then one entry
per qualifying expense row, then — iff `dailySummary` is present — the
manual-summary entry followed by the difference entry; on the spec's
worked example the batch is exactly the five listed entries with amounts
`[100, 40000, -15, 40085, 30]`. -/
theorem C1_batch_order_and_content :
    (∀ now s, buildBatch now s = specLedgerBatch now s) ∧
    buildBatch "t" exampleForm =
      [⟨"t", "ana", .manana, "Ventas con Tarjeta", "Ingreso: First Data", 100⟩,
       ⟨"t", "ana", .manana, "Ventas en Efectivo", "Ingreso: Efectivo", 40000⟩,
       ⟨"t", "ana", .manana, "Gastos Operativos", "Gasto: ice", -15⟩,
       ⟨"t", "ana", .manana, "Cierre", "Resumen Diario (Manual)", 40085⟩,
       ⟨"t", "ana", .manana, "Cierre", "Diferencia de Caja", 30⟩] ∧
    (buildBatch "t" exampleForm).map LogEntry.amount = [100, 40000, -15, 40085, 30] :=
  ⟨buildBatch_eq_spec, by decide, by decide⟩

/-- C6: `absoluteTotal` always equals
`digitalIncomeSubtotal + cashSubtotal + expensesSubtotal`, and `difference`
equals `absoluteTotal` minus `dailySummary` with an absent summary treated
as 0 (so `difference = absoluteTotal` when the summary is absent), for all
entered values of any sign. -/
theorem C6_totals_relation (s : FormState) :
    absoluteTotal s
        = digitalIncomeSubtotal s + cashSubtotal s.cashEntries
            + expensesSubtotal s.expenses ∧
    difference s = absoluteTotal s - s.dailySummary.getD 0 ∧
    (s.dailySummary = none → difference s = absoluteTotal s) := by
  refine ⟨by simp [absoluteTotal, totalIncome], rfl, fun h => ?_⟩
  simp [difference, h]

/-- Witness for C6 at a state whose daily summary is absent. -/
theorem C6_totals_relation_witness :
    emptyBatchForm.dailySummary = none ∧
    difference emptyBatchForm = absoluteTotal emptyBatchForm :=
  ⟨rfl, (C6_totals_relation emptyBatchForm).2.2 rfl⟩

/-- C7: `cashSubtotal` is the sum over the rows of denomination times
quantity, absent fields contributing 0; on
`[{20000, 2}, {10000, null}]` it is 40000. -/
theorem C7_cash_subtotal :
    (∀ entries, cashSubtotal entries
        = (entries.map fun e => e.denomination.getD 0 * e.quantity.getD 0).sum) ∧
    cashSubtotal [⟨some 20000, some 2⟩, ⟨some 10000, none⟩] = 40000 :=
  ⟨cashSubtotal_eq_sum, by decide⟩

/-- C8: an expense row produces a ledger entry iff its amount is present
and positive and its detail is non-empty; the emitted entry negates the
amount and embeds the detail in its label; a row failing any condition is
skipped (the loop is total — skipping is not an error). -/
theorem C8_expense_row_emission :
    (∀ now cn sh es, expenseLogEntries now cn sh es = specExpensePart now cn sh es) ∧
    (∀ now cn sh e, expenseLogEntries now cn sh [e] ≠ []
        ↔ ∃ a, e.amount = some a ∧ 0 < a ∧ e.detail ≠ "") ∧
    (∀ now cn sh e a, e.amount = some a → 0 < a → e.detail ≠ "" →
        expenseLogEntries now cn sh [e]
          = [⟨now, cn, sh, "Gastos Operativos", "Gasto: " ++ e.detail, -a⟩]) := by
  refine ⟨expenseLogEntries_eq_spec, fun now cn sh e => ?_, fun now cn sh e a ha hpos hd => ?_⟩
  · rw [expenseLogEntries_eq_spec, ← specExpenseQualifies_iff]
    by_cases h : specExpenseQualifies e = true <;> simp [specExpensePart, List.filter_cons, h]
  · have hq : expenseQualifies e = true := by
      rw [expenseQualifies_eq_spec, specExpenseQualifies_iff]
      exact ⟨a, ha, hpos, hd⟩
    simp [expenseLogEntries, List.filterMap_cons, hq, ha]

/-- C2: after a successful network submission, every form field is back at
the default seed (empty name, morning shift, absent scalars, the three
seed denominations with absent quantities, one blank expense row), the
submitted batch is prepended to the history in order, and `resetForm`
touches neither the history nor the submission status. -/
theorem C2_success_reset_and_history (now : String) (st a : AppState) (b : List LogEntry)
    (h : submitFormSync now st = (a, some b)) :
    ((onNetworkSuccess b a).form = defaultFormState ∧
      (onNetworkSuccess b a).form.closerName = "" ∧
      (onNetworkSuccess b a).form.shift = .manana ∧
      (onNetworkSuccess b a).form.firstDataIncome = none ∧
      (onNetworkSuccess b a).form.pedidosYaIncome = none ∧
      (onNetworkSuccess b a).form.mercadoPagoIncome = none ∧
      (onNetworkSuccess b a).form.dailySummary = none ∧
      (onNetworkSuccess b a).form.cashEntries
        = [⟨some 20000, none⟩, ⟨some 10000, none⟩, ⟨some 2000, none⟩] ∧
      (onNetworkSuccess b a).form.expenses = [⟨"", none⟩]) ∧
    ((onNetworkSuccess b a).webhookStatus = .success ∧
      (onNetworkSuccess b a).logHistory = b ++ st.logHistory) ∧
    (∀ x : AppState, (resetForm x).logHistory = x.logHistory ∧
      (resetForm x).webhookStatus = x.webhookStatus ∧
      (resetForm x).webhookError = x.webhookError) := by
  obtain ⟨ha, -, -, -⟩ := submitFormSync_post h
  subst ha
  exact ⟨⟨rfl, rfl, rfl, rfl, rfl, rfl, rfl, rfl, rfl⟩, ⟨rfl, rfl⟩,
    fun x => ⟨rfl, rfl, rfl⟩⟩

/-- Witness for C2 on a concrete successful submission. -/
theorem C2_success_reset_and_history_witness :
    submitFormSync "t" { initAppState with form := traceForm }
      = (traceAppSending, some traceBatch1) ∧
    (onNetworkSuccess traceBatch1 traceAppSending).form = defaultFormState ∧
    (onNetworkSuccess traceBatch1 traceAppSending).logHistory
      = traceBatch1 ++ ({ initAppState with form := traceForm } : AppState).logHistory := by
  have h := C2_success_reset_and_history "t" { initAppState with form := traceForm }
    traceAppSending traceBatch1 (by decide)
  exact ⟨by decide, h.1.1, h.2.1.2⟩

/-- C3: a failed network submission ends in `error`, with the connectivity
message when the failure carried no response status (status 0) and
otherwise a distinct message embedding the numeric server status; the form
state and the history keep their pre-submit values. -/
theorem C3_failure_classification_and_frame (now : String) (st a : AppState)
    (b : List LogEntry) (code : Nat) (h : submitFormSync now st = (a, some b)) :
    (onNetworkFailure code a).webhookStatus = .error ∧
    (onNetworkFailure code a).webhookError
      = some (if code = 0 then networkErrMsg else serverErrMsg code) ∧
    (code ≠ 0 → (onNetworkFailure code a).webhookError
      = some ("Error del servidor: " ++ toString code ++ ".")) ∧
    serverErrMsg code ≠ networkErrMsg ∧
    (onNetworkFailure code a).form = st.form ∧
    (onNetworkFailure code a).logHistory = st.logHistory := by
  obtain ⟨ha, -, -, -⟩ := submitFormSync_post h
  subst ha
  refine ⟨rfl, rfl, fun hc => ?_, serverErrMsg_ne_networkErrMsg code, rfl, rfl⟩
  simp [onNetworkFailure, hc, serverErrMsg]

/-- Witness for C3 on a concrete submission failing with server status 404. -/
theorem C3_failure_classification_and_frame_witness :
    submitFormSync "t" { initAppState with form := traceForm }
      = (traceAppSending, some traceBatch1) ∧ (404 : Nat) ≠ 0 ∧
    (onNetworkFailure 404 traceAppSending).webhookStatus = .error ∧
    (onNetworkFailure 404 traceAppSending).webhookError
      = some ("Error del servidor: " ++ toString (404 : Nat) ++ ".") ∧
    (onNetworkFailure 404 traceAppSending).form
      = ({ initAppState with form := traceForm } : AppState).form := by
  have h := C3_failure_classification_and_frame "t" { initAppState with form := traceForm }
    traceAppSending traceBatch1 404 (by decide)
  exact ⟨by decide, by decide, h.1, h.2.2.1 (by decide), h.2.2.2.2.1⟩

/-- C4: a submit with an empty closer name ends in `error` with the fixed
validation message and posts nothing; a valid submit whose batch is empty
ends in `error` with the fixed "nothing to submit" message and posts
nothing; in both cases the previous error message is replaced by the new
one.  With all scalar incomes entered as 0, seed cash rows, a blank
expense row and no daily summary, the batch is empty and the empty-batch
branch is taken. -/
theorem C4_validation_and_empty_batch (now : String) (st : AppState) :
    (st.form.closerName = "" →
      submitFormSync now st
        = ({ st with webhookStatus := .error, webhookError := some validationMsg },
           none)) ∧
    (st.form.closerName ≠ "" → buildBatch now st.form = [] →
      submitFormSync now st
        = ({ st with webhookStatus := .error, webhookError := some emptyBatchMsg },
           none)) ∧
    buildBatch now emptyBatchForm = [] ∧
    submitFormSync now { initAppState with form := emptyBatchForm }
      = ({ initAppState with
            form := emptyBatchForm
            webhookStatus := .error
            webhookError := some emptyBatchMsg }, none) := by
  refine ⟨fun h1 => ?_, fun h1 h2 => ?_, rfl, ?_⟩
  · simp [submitFormSync, h1]
  · simp [submitFormSync, h1, h2]
  · have : ({ initAppState with form := emptyBatchForm } : AppState).form.closerName
        ≠ "" := by decide
    simp [submitFormSync, this]
    rfl

/-- Witness for C4: the validation branch on the initial state (whose
closer name is empty) and the empty-batch branch on the all-zeros form. -/
theorem C4_validation_and_empty_batch_witness :
    initAppState.form.closerName = "" ∧
    submitFormSync "t" initAppState
      = ({ initAppState with
            webhookStatus := .error
            webhookError := some validationMsg }, none) ∧
    ({ initAppState with form := emptyBatchForm } : AppState).form.closerName ≠ "" ∧
    buildBatch "t" emptyBatchForm = [] ∧
    submitFormSync "t" { initAppState with form := emptyBatchForm }
      = ({ initAppState with
            form := emptyBatchForm
            webhookStatus := .error
            webhookError := some emptyBatchMsg }, none) :=
  ⟨rfl, (C4_validation_and_empty_batch "t" initAppState).1 rfl, by decide, by decide,
    (C4_validation_and_empty_batch "t" { initAppState with form := emptyBatchForm }).2.1
      (by decide) (by decide)⟩

/-- C9: an in-bounds per-row update (cash denomination or quantity,
expense detail or amount) changes only the addressed field of the
addressed row: every other row is unchanged, the untouched field of the
row is unchanged, and — the functions being pure — the old list value is
never mutated. -/
theorem C9_in_bounds_update (entries : List CashEntry) (es : List ExpenseEntry)
    (i : Nat) (field : CashField) (v : Option Int) (d : String)
    (hc : i < entries.length) (he : i < es.length) :
    ((updateCashEntries entries i field v).length = entries.length ∧
      (∀ j, j ≠ i → (updateCashEntries entries i field v)[j]? = entries[j]?) ∧
      (updateCashEntries entries i field v)[i]? = some (setCashField field v entries[i]) ∧
      (setCashField .denomination v entries[i]).quantity = entries[i].quantity ∧
      (setCashField .quantity v entries[i]).denomination = entries[i].denomination) ∧
    ((updateExpenseDetail es i d).length = es.length ∧
      (∀ j, j ≠ i → (updateExpenseDetail es i d)[j]? = es[j]?) ∧
      (updateExpenseDetail es i d)[i]? = some ⟨d, es.get ⟨i, he⟩ |>.amount⟩) ∧
    ((updateExpenseAmount es i v).length = es.length ∧
      (∀ j, j ≠ i → (updateExpenseAmount es i v)[j]? = es[j]?) ∧
      (updateExpenseAmount es i v)[i]? = some ⟨(es.get ⟨i, he⟩).detail, v⟩) := by
  unfold updateCashEntries updateExpenseDetail updateExpenseAmount
  rw [dif_pos hc, dif_pos he, dif_pos he]
  refine ⟨⟨List.length_set .., fun j hj => ?_, ?_, rfl, rfl⟩,
    ⟨List.length_set .., fun j hj => ?_, ?_⟩, ⟨List.length_set .., fun j hj => ?_, ?_⟩⟩
  all_goals first
    | (rw [List.getElem?_set_ne]; omega)
    | (rw [List.getElem?_set_self] <;> simp [hc, he, List.get_eq_getElem])

/-- Witness for C9 at the seed lists, updating row 0. -/
theorem C9_in_bounds_update_witness :
    (0 : Nat) < DEFAULT_CASH_ENTRIES.length ∧
    (0 : Nat) < [(⟨"", none⟩ : ExpenseEntry)].length ∧
    (updateCashEntries DEFAULT_CASH_ENTRIES 0 .quantity (some 2))[0]?
      = some ⟨some 20000, some 2⟩ ∧
    (updateCashEntries DEFAULT_CASH_ENTRIES 0 .quantity (some 2))[1]?
      = DEFAULT_CASH_ENTRIES[1]? := by
  have h := C9_in_bounds_update DEFAULT_CASH_ENTRIES [⟨"", none⟩] 0 .quantity (some 2)
    "ice" (by decide) (by decide)
  exact ⟨by decide, by decide, h.1.2.2.1, h.1.2.1 1 (by decide)⟩

/-- C10: an out-of-range index does not make the handlers fail; every
existing row is unchanged and a new row holding only the updated field
appears at the given index, the list silently growing to `index + 1`
(skipped positions modelled as blank rows, as the component reads a hole
as absent everywhere). -/
theorem C10_out_of_bounds_update (entries : List CashEntry) (es : List ExpenseEntry)
    (i : Nat) (field : CashField) (v : Option Int) (d : String)
    (hc : entries.length ≤ i) (he : es.length ≤ i) :
    ((updateCashEntries entries i field v).length = i + 1 ∧
      (∀ j, j < entries.length → (updateCashEntries entries i field v)[j]? = entries[j]?) ∧
      (updateCashEntries entries i field v)[i]? = some (setCashField field v blankCashEntry) ∧
      (setCashField .denomination v blankCashEntry).quantity = none ∧
      (setCashField .quantity v blankCashEntry).denomination = none) ∧
    ((updateExpenseDetail es i d).length = i + 1 ∧
      (∀ j, j < es.length → (updateExpenseDetail es i d)[j]? = es[j]?) ∧
      (updateExpenseDetail es i d)[i]? = some ⟨d, none⟩) ∧
    ((updateExpenseAmount es i v).length = i + 1 ∧
      (∀ j, j < es.length → (updateExpenseAmount es i v)[j]? = es[j]?) ∧
      (updateExpenseAmount es i v)[i]? = some ⟨"", v⟩) := by
  unfold updateCashEntries updateExpenseDetail updateExpenseAmount
  rw [dif_neg (by omega), dif_neg (by omega), dif_neg (by omega)]
  obtain ⟨hl1, hf1, hx1⟩ :=
    append_pad_getElem entries blankCashEntry (setCashField field v blankCashEntry) i hc
  obtain ⟨hl2, hf2, hx2⟩ :=
    append_pad_getElem es blankExpenseEntry { blankExpenseEntry with detail := d } i he
  obtain ⟨hl3, hf3, hx3⟩ :=
    append_pad_getElem es blankExpenseEntry { blankExpenseEntry with amount := v } i he
  exact ⟨⟨hl1, hf1, hx1, rfl, rfl⟩, ⟨hl2, hf2, hx2⟩, ⟨hl3, hf3, hx3⟩⟩

/-- Witness for C10 at the seed lists, updating index 3 (one past the cash
list, two past the expense list). -/
theorem C10_out_of_bounds_update_witness :
    DEFAULT_CASH_ENTRIES.length ≤ 3 ∧
    [(⟨"", none⟩ : ExpenseEntry)].length ≤ 3 ∧
    (updateCashEntries DEFAULT_CASH_ENTRIES 3 .quantity (some 2)).length = 4 ∧
    (updateCashEntries DEFAULT_CASH_ENTRIES 3 .quantity (some 2))[3]?
      = some ⟨none, some 2⟩ ∧
    (updateExpenseDetail [⟨"", none⟩] 3 "ice")[3]? = some ⟨"ice", none⟩ := by
  have h := C10_out_of_bounds_update DEFAULT_CASH_ENTRIES [⟨"", none⟩] 3 .quantity
    (some 2) "ice" (by decide) (by decide)
  exact ⟨by decide, by decide, h.1.1, h.1.2.2.1, h.2.1.2.2⟩

/-- Witness for C8 at the spec's example expense row. -/
theorem C8_expense_row_emission_witness :
    (⟨"ice", some 15⟩ : ExpenseEntry).amount = some 15 ∧ (0 : Int) < 15 ∧
    (⟨"ice", some 15⟩ : ExpenseEntry).detail ≠ "" ∧
    expenseLogEntries "t" "ana" .manana [⟨"ice", some 15⟩]
      = [⟨"t", "ana", .manana, "Gastos Operativos", "Gasto: ice", -15⟩] :=
  ⟨rfl, by decide, by decide,
    C8_expense_row_emission.2.2 "t" "ana" .manana ⟨"ice", some 15⟩ 15 rfl (by decide)
      (by decide)⟩

/-- The invariant holds along every guarded execution. -/
theorem greach_inv {σ : SysState} (h : GReach σ) : SysInv σ := by
  induction h with
  | init => exact ⟨Or.inl rfl, Or.inl rfl⟩
  | @step σ σ2 e hg hs hok ih =>
    cases hs with
    | edit f => exact ⟨ih.1, ih.2⟩
    | submitNoPost now a hsync =>
      have hguard := hok now rfl
      have hin : σ.inFlight = [] := by
        rcases ih.1 with h1 | ⟨b, hb, hst⟩
        · exact h1
        · rcases hguard with h2 | h2 <;> rw [h2] at hst <;> cases hst
      have htim : σ.timers = 0 := by
        rcases ih.2 with h1 | ⟨h1, hst⟩
        · exact h1
        · rcases hguard with h2 | h2 <;> rw [h2] at hst <;> cases hst
      exact ⟨Or.inl hin, Or.inl htim⟩
    | submitPost now a b hsync =>
      have hguard := hok now rfl
      have hin : σ.inFlight = [] := by
        rcases ih.1 with h1 | ⟨c, hc, hst⟩
        · exact h1
        · rcases hguard with h2 | h2 <;> rw [h2] at hst <;> cases hst
      have htim : σ.timers = 0 := by
        rcases ih.2 with h1 | ⟨h1, hst⟩
        · exact h1
        · rcases hguard with h2 | h2 <;> rw [h2] at hst <;> cases hst
      have hsend : a.webhookStatus = .sending := by
        rw [(submitFormSync_post hsync).1]
      exact ⟨Or.inr ⟨b, by rw [hin], hsend⟩, Or.inl htim⟩
    | netSuccess b rest hfl =>
      rcases ih.1 with h1 | ⟨c, hc, hst⟩
      · rw [hfl] at h1; cases h1
      · have hrest : rest = [] := by
          rw [hfl] at hc
          exact (List.cons_eq_cons.mp hc).2
        have htim : σ.timers = 0 := by
          rcases ih.2 with h2 | ⟨h2, hsucc⟩
          · exact h2
          · rw [hsucc] at hst; cases hst
        exact ⟨Or.inl hrest, Or.inr ⟨show σ.timers + 1 = 1 by omega, rfl⟩⟩
    | netFailure code b rest hfl =>
      rcases ih.1 with h1 | ⟨c, hc, hst⟩
      · rw [hfl] at h1; cases h1
      · have hrest : rest = [] := by
          rw [hfl] at hc
          exact (List.cons_eq_cons.mp hc).2
        have htim : σ.timers = 0 := by
          rcases ih.2 with h2 | ⟨h2, hsucc⟩
          · exact h2
          · rw [hsucc] at hst; cases hst
        exact ⟨Or.inl hrest, Or.inl htim⟩
    | timer hpos =>
      rcases ih.2 with h1 | ⟨h1, hsucc⟩
      · omega
      · have hin : σ.inFlight = [] := by
          rcases ih.1 with h2 | ⟨c, hc, hst⟩
          · exact h2
          · rw [hsucc] at hst; cases hst
        exact ⟨Or.inl hin, Or.inl (show σ.timers - 1 = 0 by omega)⟩

/-- C5 (amended): in every execution in which each submit action is fired
only while the status is `idle` or `error` — i.e. not while a request is
in flight and not while the success banner is still showing — the status
signal only ever transitions `idle → sending` or `error → sending` on a
submit, `sending → success` or `sending → error` on completion of the
attempt, and `success → idle` on the 5000 ms timer; from `error` it
persists until the next submit. -/
theorem C5_status_machine_guarded (σ : SysState) (e : Ev) (σ2 : SysState)
    (hg : GReach σ) (hs : Step σ e σ2) (hok : SubmitOk σ e) :
    ChainOk (statusesOf σ e σ2) := by
  have inv := greach_inv hg
  cases hs with
  | edit f => simp [ChainOk, statusesOf, chainOkB]
  | submitNoPost now a hsync =>
    have hst := submitFormSync_noPost_status hsync
    rcases hok now rfl with h1 | h1 <;>
      simp [ChainOk, statusesOf, chainOkB, h1, hst, allowedTransition]
  | submitPost now a b hsync =>
    have hst : a.webhookStatus = .sending := by rw [(submitFormSync_post hsync).1]
    rcases hok now rfl with h1 | h1 <;>
      simp [ChainOk, statusesOf, chainOkB, h1, hst, allowedTransition]
  | netSuccess b rest hfl =>
    rcases inv.1 with h1 | ⟨c, hc, hst⟩
    · rw [hfl] at h1; cases h1
    · simp [ChainOk, statusesOf, chainOkB, hst, onNetworkSuccess, resetForm,
        allowedTransition]
  | netFailure code b rest hfl =>
    rcases inv.1 with h1 | ⟨c, hc, hst⟩
    · rw [hfl] at h1; cases h1
    · simp [ChainOk, statusesOf, chainOkB, hst, onNetworkFailure,
        allowedTransition]
  | timer hpos =>
    rcases inv.2 with h1 | ⟨h1, hsucc⟩
    · omega
    · simp [ChainOk, statusesOf, chainOkB, hsucc, allowedTransition]

/-- Witness for the amended C5 on a concrete guarded step. -/
theorem C5_status_machine_guarded_witness :
    GReach initSys ∧ Step initSys (.edit defaultFormState) initSys ∧
    SubmitOk initSys (.edit defaultFormState) ∧
    ChainOk (statusesOf initSys (.edit defaultFormState) initSys) :=
  ⟨GReach.init, Step.edit initSys defaultFormState, fun _ h => Ev.noConfusion h,
    C5_status_machine_guarded initSys (.edit defaultFormState) initSys GReach.init
      (Step.edit initSys defaultFormState) (fun _ h => Ev.noConfusion h)⟩

/-- Counterexample to C5 as stated: nothing stops a submit while the
success banner is showing (the 5 s timer has not yet fired), and that
submit moves the status `success → sending`, a transition outside the
claimed list.  The trace: edit the form, submit (posts), network success,
re-edit the form, submit again while still `success`. -/
theorem C5_status_machine_counterexample : ¬ StatusDiscipline := by
  intro h
  have s1 : Step initSys (.edit traceForm)
      ⟨{ initAppState with form := traceForm }, [], 0⟩ :=
    Step.edit initSys traceForm
  have s2 : Step ⟨{ initAppState with form := traceForm }, [], 0⟩ (.submit "t")
      ⟨traceAppSending, [traceBatch1], 0⟩ :=
    Step.submitPost _ "t" traceAppSending traceBatch1 (by decide)
  have s3 : Step ⟨traceAppSending, [traceBatch1], 0⟩ .netSuccess
      ⟨traceAppSuccess, [], 1⟩ :=
    Step.netSuccess _ traceBatch1 [] rfl
  have s4 : Step ⟨traceAppSuccess, [], 1⟩ (.edit traceForm) traceReadyAgain :=
    Step.edit _ traceForm
  have hr : Reach traceReadyAgain :=
    Reach.step (Reach.step (Reach.step (Reach.step Reach.init s1) s2) s3) s4
  have s5 : Step traceReadyAgain (.submit "u")
      ⟨{ traceAppSuccess with form := traceForm, webhookStatus := .sending },
       [[⟨"u", "ana", .manana, "Ventas con Tarjeta", "Ingreso: First Data", 100⟩]], 1⟩ :=
    Step.submitPost _ "u" _ _ (by decide)
  exact absurd (h traceReadyAgain (.submit "u") _ hr s5) (by decide)

end Cierre
